import Mathlib

/-!
Verification of `internlm/utils/storage_manager.py`.

We embed the storage-manager module shallowly: Python strings become
`List Char`, Python exceptions become the `PyErr` sum type and fallible
code returns `Except PyErr _`.  The filesystem, the S3 object store and
the asyncio machinery are modelled explicitly; each definition carries a
comment pointing at the source construct it translates.
-/

set_option autoImplicit false

namespace StorageSpec

/-! ## Definitions: the shallow embedding of the module -/

instance {ε α : Type} [DecidableEq ε] [DecidableEq α] : DecidableEq (Except ε α) := fun x y =>
  match x, y with
  | .error a, .error b => decidable_of_iff (a = b) (by simp)
  | .ok a, .ok b => decidable_of_iff (a = b) (by simp)
  | .error _, .ok _ => isFalse (by simp)
  | .ok _, .error _ => isFalse (by simp)

/-- Python strings, modelled as lists of characters. -/
abbrev Str := List Char

/-- Source `s.startswith(pre)`. -/
def pyStartsWith (s pre : Str) : Bool := pre.isPrefixOf s

/-- Source `s.lstrip(chars)`: removes leading characters that are members of the
set `chars` — it does NOT remove the string `chars` as a prefix. -/
def pyLstrip (chars : Str) (s : Str) : Str := s.dropWhile (fun c => chars.contains c)

/-- Source `s.split(sep)` for a one-character separator: always returns a
non-empty list ( `"".split("/") == [""]` ). -/
def splitOnChar (sep : Char) : Str → List Str
  | [] => [[]]
  | c :: rest =>
    if c = sep then [] :: splitOnChar sep rest
    else
      match splitOnChar sep rest with
      | [] => [[c]]
      | h :: t => (c :: h) :: t

/-- Source `sep.join(parts)` for a one-character separator. -/
def joinChar (sep : Char) : List Str → Str
  | [] => []
  | [p] => p
  | p :: rest => p ++ sep :: joinChar sep rest

/-- Source `s.split(sep, maxsplit=1)` when it yields two pieces; `none` when the
separator does not occur (in which case the tuple-unpacking
`a, b = s.split(sep, 1)` raises). -/
def splitOnceChar (sep : Char) : Str → Option (Str × Str)
  | [] => none
  | c :: rest =>
    if c = sep then some ([], rest)
    else
      match splitOnceChar sep rest with
      | none => none
      | some (a, b) => some (c :: a, b)

/-- The part of `s` after its last `sep` character, when `sep` occurs. -/
def afterLastSep (sep : Char) (s : Str) : Str :=
  (s.reverse.takeWhile (fun c => c ≠ sep)).reverse

/-- Python exceptions observable in this module. -/
inductive PyErr where
  /-- Source `AttributeError` — raised explicitly for a bad path prefix, and
  implicitly when reading an attribute that was never assigned. -/
  | attributeError (what : String)
  /-- Source `TypeError` — e.g. indexing a list with a non-integer. -/
  | typeError
  /-- Source `IndexError` — list index out of range. -/
  | indexError
  /-- Source `KeyError` — missing dict key (e.g. a page without `Contents`). -/
  | keyError
  /-- Source `FileNotFoundError` from `os.remove` / `open`. -/
  | fileNotFound
  /-- Source `IsADirectoryError` from `os.remove` / `open` on a directory. -/
  | isADirectoryError
  /-- a failed `assert` statement. -/
  | assertionError
  /-- Source `RuntimeError(msg)`. -/
  | runtimeError (msg : String)
  /-- botocore client error (e.g. downloading a missing key). -/
  | clientError
  /-- Source `asyncio.InvalidStateError`. -/
  | invalidStateError
  deriving DecidableEq

/-- The wall-clock string and pid that `get_tmp_file_name` embeds in the
staging-file name (`datetime.now().strftime(...)` and `os.getpid()`). -/
structure TimePid where
  time : Str
  pid : Str
  deriving DecidableEq

/-- Source `os.path.join(a, b)` for the two-argument form used by the source. -/
def pyPathJoin (a b : Str) : Str :=
  if pyStartsWith b ['/'] then b
  else if a.isEmpty then b
  else if a.getLast? = some '/' then a ++ b
  else a ++ '/' :: b

/-- Source `get_tmp_file_name(tmp_local_folder, fp)`:
`os.path.join(tmp, fp.split("/")[-1])` then
`"-".join([base, current_time, str(pid)]) + ".tmpfile"`.
(`fp.split("/")` is never empty, so `[-1]` is its last element.) -/
def getTmpFileName (tmpLocalFolder : Str) (fp : Str) (tp : TimePid) : Str :=
  let base := pyPathJoin tmpLocalFolder ((splitOnChar '/' fp).getLastD [])
  joinChar '-' [base, tp.time, tp.pid] ++ (".tmpfile").toList

/-- Source `boto3_url_re = re.compile(r"([^\.]+)\.([\d\.]+)")` applied with
`re.match` (anchored at the start, not at the end): group 1 is the
non-empty run before the first `.`, group 2 is the maximal non-empty run
of digits and dots right after that first dot. -/
def boto3UrlMatch (s : Str) : Option (Str × Str) :=
  let bucket := s.takeWhile (fun c => c ≠ '.')
  if bucket.isEmpty then none
  else if s.length ≤ bucket.length then none
  else
    let ep := (s.drop (bucket.length + 1)).takeWhile (fun c => c.isDigit || c = '.')
    if ep.isEmpty then none else some (bucket, ep)

/-- The fields of `Boto3MetaInfo` produced by `get_boto3_meta` (the
`handler` field is attached later by `_get_client`). -/
structure Boto3Meta where
  isAsync : Bool
  bucketName : Str
  endpoint : Str
  filePath : Str
  localNvmePath : Str
  deriving DecidableEq

/-- Source `get_boto3_meta(fp, tmp_local_folder, is_async)`.  Note the source
computes `fp.lstrip("s3://")` — a character-set strip, not a prefix
strip — before splitting on `/`; `assert` failures become
`PyErr.assertionError`. -/
def getBoto3Meta (tmpLocalFolder : Str) (tp : TimePid) (isAsync : Bool) (fp : Str) :
    Except PyErr Boto3Meta :=
  if pyStartsWith fp ("s3://").toList = false then .error .assertionError
  else
    match splitOnChar '/' (pyLstrip ("s3://").toList fp) with
    | [] => .error .indexError
    | p0 :: rest =>
      match boto3UrlMatch p0 with
      | none => .error .assertionError
      | some (bucket, ep) =>
        .ok { isAsync := isAsync
              bucketName := bucket
              endpoint := ("http://").toList ++ ep ++ (":80").toList
              filePath := joinChar '/' rest
              localNvmePath := getTmpFileName tmpLocalFolder fp tp }

/-- Source `get_local_meta(fp)`: asserts the path is not an s3 url and keeps the
destination path unchanged. -/
def getLocalMeta (fp : Str) : Except PyErr Str :=
  if pyStartsWith fp ("s3://").toList then .error .assertionError else .ok fp

/-- The class-level `CLI_DICT` mapping cache keys to client instances.
A client instance is identified by the order in which it was
constructed (`nextId` is the id the next construction would get). -/
structure ClientCache where
  entries : List (Str × Nat)
  nextId : Nat
  deriving DecidableEq

/-- Source `backend_key in CLI_DICT` / `CLI_DICT[backend_key]`. -/
def cacheFind (c : ClientCache) (k : Str) : Option Nat :=
  (c.entries.find? (fun e => e.1 == k)).map (fun e => e.2)

/-- Source `if backend_key not in CLI_DICT: CLI_DICT.update({backend_key: ctor(...)})`
followed by `CLI_DICT[backend_key]`: constructs a fresh client only when
the key is absent. -/
def cliGetOrCreate (c : ClientCache) (k : Str) : Nat × ClientCache :=
  match cacheFind c k with
  | some i => (i, c)
  | none => (c.nextId, { entries := c.entries ++ [(k, c.nextId)], nextId := c.nextId + 1 })

/-- The meta info returned by `_get_client`, with the cached client
attached (`meta_info.client = CLI_DICT[backend_key]`). -/
inductive MetaInfo where
  | localMeta (clientId : Nat) (destPath : Str)
  | boto3Meta (clientId : Nat) (m : Boto3Meta)
  deriving DecidableEq

/-- The cache key `_get_client` uses: the backend tag `"local"` for the
local backend, `"boto3:" + endpoint` for the boto3 backend. -/
def cacheKeyOfMeta : MetaInfo → Str
  | .localMeta _ _ => ("local").toList
  | .boto3Meta _ m => ("boto3:").toList ++ m.endpoint

def clientIdOf : MetaInfo → Nat
  | .localMeta cid _ => cid
  | .boto3Meta cid _ => cid

/-- Source `StorageManager._get_client(path)`: split the uri on the first `:`
(no colon → the caught `ValueError` is re-raised as `AttributeError`),
dispatch on the backend tag, resolve the meta info, and attach the
cached (or freshly constructed) client. An unknown backend tag fails the
`assert backend in StorageManager.BACKEND_TYPE`. -/
def getClientFn (tmpLocalFolder : Str) (asyncMode : Bool) (tp : TimePid)
    (cache : ClientCache) (path : Str) : Except PyErr (MetaInfo × ClientCache) :=
  match splitOnceChar ':' path with
  | none => .error (.attributeError "path is not startwith backend prefix")
  | some (backend, rest) =>
    if backend = ("local").toList then
      match getLocalMeta rest with
      | .error e => .error e
      | .ok dest =>
        let p := cliGetOrCreate cache backend
        .ok (.localMeta p.1 dest, p.2)
    else if backend = ("boto3").toList then
      match getBoto3Meta tmpLocalFolder tp asyncMode rest with
      | .error e => .error e
      | .ok m =>
        let p := cliGetOrCreate cache (backend ++ ':' :: m.endpoint)
        .ok (.boto3Meta p.1 m, p.2)
    else .error .assertionError

/-- Source `fp.rsplit("/", maxsplit=1)[1]`: the final path segment when `fp`
contains a `/`; otherwise `rsplit` yields a single-element list and the
`[1]` subscript raises `IndexError`. -/
def rsplitTail (fp : Str) : Except PyErr Str :=
  if fp.contains '/' then .ok (afterLastSep '/' fp)
  else .error .indexError

/-- One iteration of `get_fns`'s inner loop: append
`obj["Key"].rsplit("/", 1)[1]` to `folder_name_list`. -/
def getFnsKeyStep (acc : List Str) (k : Str) : Except PyErr (List Str) :=
  match rsplitTail k with
  | .error e => .error e
  | .ok seg => .ok (acc ++ [seg])

/-- One iteration of `get_fns`'s outer loop over paginator pages.  A
page is modelled by the list of its object keys; a page with no matching
object carries no `"Contents"` field, so the subscript
`page["Contents"]` raises `KeyError` — we encode that page as `[]`. -/
def getFnsPageStep (acc : List Str) (page : List Str) : Except PyErr (List Str) :=
  if page.isEmpty then .error .keyError
  else page.foldlM getFnsKeyStep acc

/-- Source `Boto3Client.get_fns`: iterate over every page of the paginator and
collect each object key's final segment. -/
def boto3GetFns (pages : List (List Str)) : Except PyErr (List Str) :=
  pages.foldlM getFnsPageStep []

/-- A local filesystem: regular files with contents (modelled as `Nat`)
plus a set of directories. -/
structure Fs where
  files : List (Str × Nat)
  dirs : List Str
  deriving DecidableEq

def fsIsDir (fs : Fs) (fp : Str) : Bool := fs.dirs.contains fp

def fsLookup (fs : Fs) (fp : Str) : Option Nat :=
  (fs.files.find? (fun e => e.1 == fp)).map (fun e => e.2)

def fsRemove (fs : Fs) (fp : Str) : Fs :=
  { fs with files := fs.files.filter (fun e => e.1 != fp) }

/-- Source `LocalClient.delete_obj`: `if not os.path.isdir(fp): os.remove(fp)` —
for a directory the function silently does nothing; for a non-directory
`os.remove` deletes the file or raises `FileNotFoundError`. -/
def localDeleteObj (fs : Fs) (fp : Str) : Except PyErr Fs :=
  if fsIsDir fs fp then .ok fs
  else
    match fsLookup fs fp with
    | some _ => .ok (fsRemove fs fp)
    | none => .error .fileNotFound

/-- A dynamically typed Python value, needed because `wait()` uses a
member of `_exception_list` as a list index. -/
inductive PyVal where
  | intV (n : Nat)
  | strV (s : Str)
  | excV (msg : Str)
  deriving DecidableEq

/-- A task submitted to `run_in_executor`: the destination object key
(`bucket ++ "/" ++ fp`), the staged payload, and `fails = some msg` when
the upload function raises `msg` instead of completing. -/
structure PendingTask where
  dest : Str
  payload : Nat
  fails : Option Str
  deriving DecidableEq

/-- The mutable fields of a `StorageManager` instance.  `hasLoop` records
whether the `_async_loop` / `_thread_pool` attributes were ever
assigned (they are, only when `enable_save and async_mode`). -/
structure SMState where
  exceptionList : List (PyVal × PyVal)
  toBeDelFiles : List Str
  asyncStack : List PendingTask
  uploadCount : Nat
  asyncMode : Bool
  hasLoop : Bool
  tmpLocalFolder : Str
  deriving DecidableEq

/-- The world outside the manager: the local filesystem and the remote
object store (keys of the form `bucket ++ "/" ++ fp`). -/
structure World where
  localFs : Fs
  remote : List (Str × Nat)
  deriving DecidableEq

/-- An S3 upload overwrites the object at its key. -/
def storeInsert (store : List (Str × Nat)) (k : Str) (v : Nat) : List (Str × Nat) :=
  (k, v) :: store.filter (fun e => e.1 != k)

def storeLookup (store : List (Str × Nat)) (k : Str) : Option Nat :=
  (store.find? (fun e => e.1 == k)).map (fun e => e.2)

/-- Ambient facts the constructor's resource-lifecycle pass observes:
whether the accessibility checks on the parent directory and on the temp
directory itself pass, and `f_bavail * f_bsize` for the temp mount. -/
structure InitEnv where
  parentAccessOk : Bool
  tmpAccessOk : Bool
  freeBytes : Nat
  deriving DecidableEq

/-- Source `get_mount_point_free_size(path)`: despite the docstring saying the
unit is TB, it returns `f_bavail * f_bsize / 1024**3`, i.e. GiB; when
the path does not exist it falls off the end and returns `None`.
(`mkRat` is used so the value is kernel-computable; see
`getMountPointFreeSize_eq_div` for the ordinary-division reading.) -/
def getMountPointFreeSize (pathExists : Bool) (freeBytes : Nat) : Option ℚ :=
  if pathExists then some (mkRat freeBytes (1024 ^ 3)) else none

/-- Source `StorageManager.__init__(enable_save, tmp_local_folder, async_mode, ...)`.
When `enable_save and async_mode`: create the loop and pool, check the
parent directory's permissions, `makedirs`+`chmod` the temp folder,
re-check its permissions, sweep stale `*.tmpfile` entries (an effect on
the temp directory only, unobserved by the claims), and finally apply
the free-space guard `if free_size < 0.1: raise`.  The free-size call is
made after `makedirs`, so the path exists. -/
def initFn (enableSave : Bool) (tmpLocalFolder : Str) (asyncMode : Bool) (env : InitEnv) :
    Except PyErr SMState :=
  let base : SMState :=
    { exceptionList := []
      toBeDelFiles := []
      asyncStack := []
      uploadCount := 0
      asyncMode := asyncMode
      hasLoop := enableSave && asyncMode
      tmpLocalFolder := tmpLocalFolder }
  if enableSave && asyncMode then
    if env.parentAccessOk = false then
      .error (.runtimeError "dose not have read and write permissions")
    else if env.tmpAccessOk = false then
      .error (.runtimeError "dose not have read and write permissions")
    else
      match getMountPointFreeSize true env.freeBytes with
      | none => .error .typeError
      | some freeSize =>
        if freeSize < mkRat 1 10 then
          .error (.runtimeError "Insufficient temporary storage space")
        else .ok base
  else .ok base

/-- The message of the dead `raise RuntimeError(...)` guard inside
`async_executor`. -/
def notInitializedMsg : String :=
  "Event loop was not initialized, please call this function in async or parallel mode"

/-- Source `asyncio.new_event_loop()` returns an object, and objects without a
`__bool__`/`__len__` override are always truthy: when the attribute
exists the `if not self._async_loop:` test is false. -/
def loopTruthy (hasLoop : Bool) : Bool := hasLoop

/-- Source `StorageManager.async_executor(fn, *args)`: reading
`self._async_loop` raises `AttributeError` when the attribute was never
assigned; otherwise the loop object is truthy, so the `NotInitialized`
guard is skipped, the work is submitted and the future appended to
`_async_stack`. -/
def asyncExecutor (st : SMState) (t : PendingTask) : Except PyErr SMState :=
  if st.hasLoop = false then .error (.attributeError "_async_loop")
  else if loopTruthy st.hasLoop = false then .error (.runtimeError notInitializedMsg)
  else .ok { st with asyncStack := st.asyncStack ++ [t] }

/-- Source `asyncio.Future.exception()`: RETURNS the stored exception (or
`None`) when the future is done; it raises only `InvalidStateError`
(future still pending) or `CancelledError`.  It does not raise the
stored exception. -/
def futureException (done : Bool) (t : PendingTask) : Except PyErr (Option Str) :=
  if done then .ok t.fails else .error .invalidStateError

/-- Running one submitted upload to completion: a successful
`async_upload_fileobj` stores the payload at the destination key; a
failing one leaves the store unchanged. -/
def applyTask (remote : List (Str × Nat)) (t : PendingTask) : List (Str × Nat) :=
  match t.fails with
  | none => storeInsert remote t.dest t.payload
  | some _ => remote

/-- Source `StorageManager._sync_tasks`: early return on an empty stack;
otherwise `await asyncio.wait(..., ALL_COMPLETED)` runs every pending
task to completion, then the loop evaluates `task.exception()` for each
task.  Because every task is done, that call returns (rather than
raises) the stored exception, the returned value is discarded, and
neither `except` branch ever runs — so nothing is appended to
`_exception_list`.  Finally the stack is cleared. -/
def syncTasks (st : SMState) (w : World) : SMState × World :=
  if st.asyncStack.isEmpty then (st, w)
  else
    let remote' := st.asyncStack.foldl applyTask w.remote
    let excs' := st.asyncStack.foldl
      (fun acc t =>
        match futureException true t with
        | .error _ => acc
        | .ok _ => acc)
      st.exceptionList
    ({ st with exceptionList := excs', asyncStack := [] }, { w with remote := remote' })

/-- Source `StorageManager._del_tmp_folder`: `os.remove` each tracked path;
`FileNotFoundError` is passed, `SystemError` only logged, but
`IsADirectoryError` is caught by neither `except` clause. -/
def delTmpFolder (files : List Str) (fs : Fs) : Except PyErr Fs :=
  files.foldlM
    (fun acc fp =>
      if fsIsDir acc fp then .error .isADirectoryError
      else
        match fsLookup acc fp with
        | some _ => .ok (fsRemove acc fp)
        | none => .ok acc)
    fs

/-- Python list subscript with a dynamically typed index: only an
integer within range succeeds. -/
def pyListIndex (l : List Str) (v : PyVal) : Except PyErr Str :=
  match v with
  | .intV n => if h : n < l.length then .ok (l.get ⟨n, h⟩) else .error .indexError
  | _ => .error .typeError

/-- Source `StorageManager.wait`: no-op unless `async_mode`; reading
`self._async_loop` faults when the attribute is missing; otherwise the
drain runs.  If `_exception_list` is non-empty the loop
`for file_id, error_msg in self._exception_list:` unpacks each record
in the OPPOSITE order to the `(e, file_id)` order `_sync_tasks` appends,
and raises on the first record after evaluating
`self._to_be_del_files[file_id]`.  With no records, the temp files are
deleted, both lists cleared, and the success counter incremented only
when `gpc.is_rank_for_log()` holds. -/
def waitFn (isLogRank : Bool) (st : SMState) (w : World) : Except PyErr (SMState × World) :=
  if st.asyncMode = false then .ok (st, w)
  else if st.hasLoop = false then .error (.attributeError "_async_loop")
  else
    let p := syncTasks st w
    match p.1.exceptionList with
    | [] =>
      match delTmpFolder p.1.toBeDelFiles p.2.localFs with
      | .error e => .error e
      | .ok fs' =>
        .ok
          ({ p.1 with
              exceptionList := []
              toBeDelFiles := []
              uploadCount := p.1.uploadCount + (if isLogRank then 1 else 0) },
            { p.2 with localFs := fs' })
    | (fid, _) :: _ =>
      match pyListIndex p.1.toBeDelFiles fid with
      | .error e => .error e
      | .ok fp => .error (.runtimeError ("Failed to upload " ++ String.mk fp))

/-- The backend `load` of the resolved client: `LocalClient.load`
asserts existence then opens the path (a directory makes `open` raise);
`Boto3Client.load` downloads `bucket ++ "/" ++ fp` from the store. -/
def clientLoad (m : MetaInfo) (w : World) : Except PyErr Nat :=
  match m with
  | .localMeta _ dest =>
    match fsLookup w.localFs dest with
    | some v => .ok v
    | none => if fsIsDir w.localFs dest then .error .isADirectoryError else .error .assertionError
  | .boto3Meta _ bm =>
    match storeLookup w.remote (bm.bucketName ++ '/' :: bm.filePath) with
    | some v => .ok v
    | none => .error .clientError

/-- Source `StorageManager.load(load_path)`: `self.wait()` first, then
`self._get_client(path=load_path)`, then the backend `load`. -/
def loadFn (isLogRank : Bool) (tp : TimePid) (st : SMState) (w : World)
    (cache : ClientCache) (path : Str) :
    Except PyErr (SMState × World × ClientCache × Nat) :=
  match waitFn isLogRank st w with
  | .error e => .error e
  | .ok (st', w') =>
    match getClientFn st'.tmpLocalFolder st'.asyncMode tp cache path with
    | .error e => .error e
    | .ok (m, cache') =>
      match clientLoad m w' with
      | .error e => .error e
      | .ok v => .ok (st', w', cache', v)

/-- Temp path tracked for the single async save of the C1 scenario. -/
def c1Tmp : Str := ("/t/ckpt-t0-1.tmpfile").toList

/-- Manager state right after one async save whose upload task fails. -/
def c1State : SMState :=
  { exceptionList := []
    toBeDelFiles := [c1Tmp]
    asyncStack := [{ dest := ("b/ckpt").toList, payload := 5, fails := some ("boom").toList }]
    uploadCount := 0
    asyncMode := true
    hasLoop := true
    tmpLocalFolder := ("/t").toList }

def c1World : World :=
  { localFs := { files := [(c1Tmp, 9)], dirs := [] }, remote := [] }

/-- Temp mount with 1 GiB free: far below the documented 100 GiB
minimum. -/
def c2EnvOneGiB : InitEnv := { parentAccessOk := true, tmpAccessOk := true, freeBytes := 2 ^ 30 }

/-- Temp mount with 64 MiB free: below even the actual `0.1` cut-off. -/
def c2EnvTiny : InitEnv := { parentAccessOk := true, tmpAccessOk := true, freeBytes := 2 ^ 26 }

def c3TmpA : Str := ("/s/a-t0-7.tmpfile").toList

def c3TmpB : Str := ("/s/b-t0-7.tmpfile").toList

/-- Manager state with two async saves pending, the second of which
fails during upload. -/
def c3State : SMState :=
  { exceptionList := []
    toBeDelFiles := [c3TmpA, c3TmpB]
    asyncStack :=
      [{ dest := ("bk/a").toList, payload := 1, fails := none },
       { dest := ("bk/b").toList, payload := 2, fails := some ("net down").toList }]
    uploadCount := 3
    asyncMode := true
    hasLoop := true
    tmpLocalFolder := ("/s").toList }

def c3World : World :=
  { localFs := { files := [(c3TmpA, 1), (c3TmpB, 2)], dirs := [] }, remote := [] }

def c8Fs : Fs := { files := [], dirs := [("/d").toList] }

def c9Env : InitEnv := { parentAccessOk := true, tmpAccessOk := true, freeBytes := 0 }

/-- The state produced by `StorageManager(enable_save=False,
async_mode=True)`. -/
def c9St : SMState :=
  { exceptionList := []
    toBeDelFiles := []
    asyncStack := []
    uploadCount := 0
    asyncMode := true
    hasLoop := false
    tmpLocalFolder := ("/t").toList }

def c9Task : PendingTask := { dest := ("b/k").toList, payload := 0, fails := none }

def c10Env : InitEnv := { parentAccessOk := true, tmpAccessOk := true, freeBytes := 0 }

def c10St : SMState :=
  { exceptionList := []
    toBeDelFiles := []
    asyncStack := []
    uploadCount := 0
    asyncMode := true
    hasLoop := false
    tmpLocalFolder := ("/u").toList }

def c10Task : PendingTask := { dest := ("b/x").toList, payload := 1, fails := none }

def c9WEnv : InitEnv := { parentAccessOk := true, tmpAccessOk := true, freeBytes := 2 ^ 40 }

def c9WSt : SMState :=
  { exceptionList := []
    toBeDelFiles := []
    asyncStack := []
    uploadCount := 0
    asyncMode := true
    hasLoop := true
    tmpLocalFolder := ("/v").toList }

def c9WTask : PendingTask := { dest := ("b/y").toList, payload := 2, fails := none }

def c8WFs : Fs := { files := [(("/w/f").toList, 1)], dirs := [("/w/d").toList] }

def c7Pages : List (List Str) :=
  [[("ck/a.pt").toList, ("ck/b.pt").toList], [("ck/sub/c.pt").toList]]

/-- Well-formedness of the client cache: client ids are pairwise
distinct, and every stored id precedes the next fresh id. -/
def CacheWF (c : ClientCache) : Prop :=
  (c.entries.map Prod.snd).Nodup ∧ ∀ e ∈ c.entries, e.2 < c.nextId

instance (c : ClientCache) : Decidable (CacheWF c) := by
  unfold CacheWF
  infer_instance

def c6Tp : TimePid := ⟨("t0").toList, ("1").toList⟩

def c6M1 : MetaInfo :=
  .boto3Meta 0
    { isAsync := true
      bucketName := ("b").toList
      endpoint := ("http://1.2:80").toList
      filePath := ("k").toList
      localNvmePath := ("/t/k-t0-1.tmpfile").toList }

def c6M2 : MetaInfo :=
  .boto3Meta 1
    { isAsync := true
      bucketName := ("b").toList
      endpoint := ("http://3.4:80").toList
      filePath := ("k").toList
      localNvmePath := ("/t/k-t0-1.tmpfile").toList }

def c6C1 : ClientCache := { entries := [(("boto3:http://1.2:80").toList, 0)], nextId := 1 }

def c6C2 : ClientCache :=
  { entries := [(("boto3:http://1.2:80").toList, 0), (("boto3:http://3.4:80").toList, 1)]
    nextId := 2 }

def c5Tmp : Str := ("/t/x.tmpfile").toList

def c5State : SMState :=
  { exceptionList := []
    toBeDelFiles := [c5Tmp]
    asyncStack := [{ dest := ("b/k").toList, payload := 7, fails := none }]
    uploadCount := 0
    asyncMode := true
    hasLoop := true
    tmpLocalFolder := ("/t").toList }

def c5World : World :=
  { localFs := { files := [(c5Tmp, 1)], dirs := [] }, remote := [] }

def c5St2 : SMState :=
  { exceptionList := []
    toBeDelFiles := []
    asyncStack := []
    uploadCount := 0
    asyncMode := true
    hasLoop := true
    tmpLocalFolder := ("/t").toList }

def c5W2 : World :=
  { localFs := { files := [], dirs := [] }, remote := [(("b/k").toList, 7)] }

def c5TpW : TimePid := ⟨("t0").toList, ("1").toList⟩

def c5Cache : ClientCache := { entries := [], nextId := 0 }

def c5C2 : ClientCache := { entries := [(("boto3:http://1.2:80").toList, 0)], nextId := 1 }

def c5Path : Str := ("boto3:s3://b.1.2/k").toList

/-! ## Theorems -/

/-- The computed free size is the plain rational division of the byte
count by `1024 ^ 3`. -/
theorem getMountPointFreeSize_eq_div (freeBytes : Nat) :
    getMountPointFreeSize true freeBytes = some ((freeBytes : ℚ) / 1024 ^ 3) := by
  simp [getMountPointFreeSize, Rat.mkRat_eq_div]
  norm_num

/-- The guard's threshold `0.1` is the plain rational `1 / 10`. -/
theorem guard_threshold_eq : mkRat 1 10 = (1 : ℚ) / 10 := by
  rw [Rat.mkRat_eq_div]
  norm_num

/-- C1: the claim says that a drain containing a failed upload task makes
`wait` report and raise an error referencing the failed task's temp
path, with the record's index equal to the task's position, and leaves
the success counter unchanged.  In the code, `task.exception()` returns
(rather than raises) the stored exception, so `_sync_tasks` never
appends an Exception Record: on a drain whose only task failed, `wait`
raises nothing, reports nothing, deletes the staged temp file, clears
the lists and (here, on the logging rank) increments the success
counter. -/
theorem wait_swallows_failed_upload :
    waitFn true c1State c1World =
      .ok
        ({ exceptionList := []
           toBeDelFiles := []
           asyncStack := []
           uploadCount := 1
           asyncMode := true
           hasLoop := true
           tmpLocalFolder := ("/t").toList },
          { localFs := { files := [], dirs := [] }, remote := [] }) := by
  decide

/-- C2: the claim (and the source's own log message, `"less then 100
GB!"`) says construction with saving and async mode enabled must fail
with `InsufficientSpace` whenever free space is below 100 GiB.  The
guard actually compares the free size in GiB against `0.1`, so a mount
with only 1 GiB free passes the guard and construction succeeds; the
guard fires only below ~107 MiB (here: 64 MiB). -/
theorem space_guard_threshold_is_tenth_of_gib :
    initFn true (("/t").toList) true c2EnvOneGiB =
      .ok
        { exceptionList := []
          toBeDelFiles := []
          asyncStack := []
          uploadCount := 0
          asyncMode := true
          hasLoop := true
          tmpLocalFolder := ("/t").toList } ∧
    initFn true (("/t").toList) true c2EnvTiny =
      .error (.runtimeError "Insufficient temporary storage space") := by
  constructor
  · decide
  · decide

/-- C3: the claim says `wait` deletes the tracked temp files and clears
both lists (then increments the counter) if and only if the drain
produced zero Exception Records, and that on a failed drain the temp
files survive and the lists stay.  In the code a failed task never
produces an Exception Record (`task.exception()` returns instead of
raising), so even this drain — whose second task failed — deletes both
staged temp files, clears both lists and increments the counter on the
logging rank.  The failed upload also never reached the store: only the
first task's object exists. -/
theorem wait_cleans_up_despite_failed_task :
    waitFn true c3State c3World =
      .ok
        ({ exceptionList := []
           toBeDelFiles := []
           asyncStack := []
           uploadCount := 4
           asyncMode := true
           hasLoop := true
           tmpLocalFolder := ("/s").toList },
          { localFs := { files := [], dirs := [] },
            remote := [(("bk/a").toList, 1)] }) := by
  decide

/-- C4: for a `local:` uri the remainder is passed through unchanged,
but for the remote backend `get_boto3_meta` computes
`fp.lstrip("s3://")`, which strips the character set `{s, 3, :, /}`
rather than the prefix `"s3://"`.  A bucket whose name begins with one
of those characters is mangled: `s3://snapshots.10.1.2.3/model.pt`
resolves to bucket `napshots`, so no re-serialization of the resolved
location can round-trip to the location written in the uri. -/
theorem path_resolver_mangles_bucket :
    getLocalMeta (("/a/b").toList) = .ok (("/a/b").toList) ∧
    getBoto3Meta (("/t").toList) ⟨("t0").toList, ("1").toList⟩ true
        (("s3://snapshots.10.1.2.3/model.pt").toList) =
      .ok
        { isAsync := true
          bucketName := ("napshots").toList
          endpoint := ("http://10.1.2.3:80").toList
          filePath := ("model.pt").toList
          localNvmePath := ("/t/model.pt-t0-1.tmpfile").toList } ∧
    ("napshots").toList ≠ ("snapshots").toList := by
  refine ⟨by decide, by decide, by decide⟩

/-- C7 counterexample: the claim says every object key matching the
prefix is returned reduced to its final path segment; for the key
`"abc"` (no `/`) the final path segment is `"abc"` itself, but
`fp.rsplit("/", 1)[1]` raises `IndexError`, so `get_fns` returns
nothing at all. -/
theorem get_fns_slashless_key_counterexample :
    boto3GetFns [[("abc").toList]] = .error .indexError := by
  decide

/-- C8 counterexample: the claim says `delete` fails with `Unsupported`
when the path is an existing directory; `LocalClient.delete_obj`
instead returns silently, deleting nothing and raising nothing. -/
theorem local_delete_dir_counterexample :
    localDeleteObj c8Fs (("/d").toList) = .ok c8Fs := by
  decide

/-- C9 counterexample: the claim says a submission on a manager not
constructed with both saving and async enabled fails with
`NotInitialized`; it actually faults with `AttributeError` on the
missing `_async_loop` attribute, never reaching the `NotInitialized`
raise. -/
theorem async_submit_not_initialized_counterexample :
    initFn false (("/t").toList) true c9Env = .ok c9St ∧
    asyncExecutor c9St c9Task = .error (.attributeError "_async_loop") ∧
    (Except.error (.attributeError "_async_loop") : Except PyErr SMState) ≠
      .error (.runtimeError notInitializedMsg) := by
  refine ⟨by decide, by decide, by decide⟩

/-- Whenever `StorageManager.__init__` returns, the instance fields are
the freshly initialised ones, with the loop/pool attributes present
exactly when `enable_save and async_mode`. -/
theorem initFn_ok_state (es : Bool) (tmp : Str) (am : Bool) (env : InitEnv) (st : SMState)
    (h : initFn es tmp am env = .ok st) :
    st =
      { exceptionList := []
        toBeDelFiles := []
        asyncStack := []
        uploadCount := 0
        asyncMode := am
        hasLoop := es && am
        tmpLocalFolder := tmp } := by
  simp only [initFn, getMountPointFreeSize, if_true] at h
  split at h
  · split at h
    · simp at h
    · split at h
      · simp at h
      · split at h
        · simp at h
        · exact (Except.ok.injEq _ _ ▸ h).symm
  · exact (Except.ok.injEq _ _ ▸ h).symm

/-- C10: a manager constructed with `async_mode=True` but
`enable_save=False` never assigns `_async_loop`/`_thread_pool`, so
every later `wait()` (past its `async_mode` early return, before the
drain) and every `async_executor` submission (before the
`NotInitialized` raise) faults with `AttributeError` on the missing
`_async_loop` attribute. -/
theorem wait_and_submit_fault_when_save_disabled
    (tmp : Str) (env : InitEnv) (st : SMState) (isLog : Bool) (w : World) (t : PendingTask)
    (h : initFn false tmp true env = .ok st) :
    waitFn isLog st w = .error (.attributeError "_async_loop") ∧
    asyncExecutor st t = .error (.attributeError "_async_loop") := by
  have hst := initFn_ok_state false tmp true env st h
  subst hst
  constructor
  · simp [waitFn]
  · simp [asyncExecutor]

theorem wait_and_submit_fault_when_save_disabled_witness :
    initFn false (("/u").toList) true c10Env = .ok c10St ∧
    waitFn false c10St { localFs := { files := [], dirs := [] }, remote := [] } =
      .error (.attributeError "_async_loop") ∧
    asyncExecutor c10St c10Task = .error (.attributeError "_async_loop") :=
  ⟨by decide,
    wait_and_submit_fault_when_save_disabled (("/u").toList) c10Env c10St false
      { localFs := { files := [], dirs := [] }, remote := [] } c10Task (by decide)⟩

/-- C9 amended: submitting to the scheduler succeeds (appending the
handle in submission order) exactly when the manager was constructed
with both saving and async mode enabled; otherwise the submission
faults with `AttributeError` on the missing `_async_loop` attribute —
not with the `NotInitialized` RuntimeError, whose guard is
unreachable because an existing event loop is always truthy. -/
theorem async_executor_requires_save_and_async
    (es am : Bool) (tmp : Str) (env : InitEnv) (st : SMState)
    (h : initFn es tmp am env = .ok st) :
    ((es && am) = true →
      ∀ t, asyncExecutor st t = .ok { st with asyncStack := st.asyncStack ++ [t] }) ∧
    ((es && am) = false →
      ∀ t, asyncExecutor st t = .error (.attributeError "_async_loop")) := by
  have hst := initFn_ok_state es tmp am env st h
  subst hst
  constructor
  · intro hc t
    simp [asyncExecutor, loopTruthy, hc]
  · intro hc t
    simp [asyncExecutor, hc]

theorem async_executor_requires_save_and_async_witness :
    initFn true (("/v").toList) true c9WEnv = .ok c9WSt ∧
    asyncExecutor c9WSt c9WTask = .ok { c9WSt with asyncStack := [c9WTask] } :=
  ⟨by decide,
    (async_executor_requires_save_and_async true true (("/v").toList) c9WEnv c9WSt
        (by decide)).1 (by decide) c9WTask⟩

/-- C8 amended: `LocalClient.delete_obj` silently does nothing (no
`Unsupported` failure) when the path is an existing directory, and
removes the file when the path is an existing non-directory file. -/
theorem local_delete_dir_noop_and_removes_file (fs : Fs) (fp : Str) :
    (fsIsDir fs fp = true → localDeleteObj fs fp = .ok fs) ∧
    (fsIsDir fs fp = false → ∀ v, fsLookup fs fp = some v →
      localDeleteObj fs fp = .ok (fsRemove fs fp) ∧ fsLookup (fsRemove fs fp) fp = none) := by
  constructor
  · intro h
    simp [localDeleteObj, h]
  · intro h v hv
    refine ⟨by simp [localDeleteObj, h, hv], ?_⟩
    have hnone : (fs.files.filter (fun e => e.1 != fp)).find? (fun e => e.1 == fp) = none := by
      rw [List.find?_eq_none]
      intro x hx
      have hne := (List.mem_filter.mp hx).2
      simpa using hne
    simp [fsLookup, fsRemove, hnone]

theorem local_delete_dir_noop_and_removes_file_witness :
    (fsIsDir c8WFs (("/w/d").toList) = true ∧
      localDeleteObj c8WFs (("/w/d").toList) = .ok c8WFs) ∧
    (fsIsDir c8WFs (("/w/f").toList) = false ∧
      fsLookup c8WFs (("/w/f").toList) = some 1 ∧
      localDeleteObj c8WFs (("/w/f").toList) = .ok (fsRemove c8WFs (("/w/f").toList)) ∧
      fsLookup (fsRemove c8WFs (("/w/f").toList)) (("/w/f").toList) = none) :=
  ⟨⟨by decide, (local_delete_dir_noop_and_removes_file c8WFs (("/w/d").toList)).1 (by decide)⟩,
    by decide, by decide,
    (local_delete_dir_noop_and_removes_file c8WFs (("/w/f").toList)).2 (by decide) 1 (by decide)⟩

theorem rsplitTail_of_contains {k : Str} (h : k.contains '/' = true) :
    rsplitTail k = .ok (afterLastSep '/' k) := by
  have h' : ('/' : Char) ∈ k := by simpa using h
  simp [rsplitTail, h']

/-- The inner loop of `get_fns` appends the final segment of every key
of one page, in order. -/
theorem getFns_inner_fold (page : List Str) :
    ∀ acc : List Str, (∀ k ∈ page, k.contains '/' = true) →
      page.foldlM getFnsKeyStep acc = .ok (acc ++ page.map (afterLastSep '/')) := by
  induction page with
  | nil =>
    intro acc _
    show Except.ok acc = _
    simp
  | cons k rest ih =>
    intro acc h
    rw [List.foldlM_cons]
    have hstep : getFnsKeyStep acc k = .ok (acc ++ [afterLastSep '/' k]) := by
      simp [getFnsKeyStep, rsplitTail_of_contains (h k (by simp))]
    rw [hstep]
    show rest.foldlM getFnsKeyStep (acc ++ [afterLastSep '/' k]) = _
    rw [ih (acc ++ [afterLastSep '/' k]) (fun k' hk' => h k' (by simp [hk']))]
    simp

/-- C7 amended: provided every page carries at least one matching object
(so the `Contents` subscript succeeds) and every matching key contains a
`/` separator (so the `rsplit(...)[1]` subscript succeeds), `get_fns`
returns, in order, the final path segment of every object key across
ALL pages — not only the first page. -/
theorem get_fns_paginates_all_final_segments (pages : List (List Str))
    (hne : ∀ p ∈ pages, p ≠ [])
    (hsl : ∀ p ∈ pages, ∀ k ∈ p, k.contains '/' = true) :
    boto3GetFns pages = .ok (pages.flatten.map (afterLastSep '/')) := by
  suffices hgo : ∀ pp : List (List Str), (∀ p ∈ pp, p ≠ []) →
      (∀ p ∈ pp, ∀ k ∈ p, k.contains '/' = true) → ∀ acc : List Str,
      pp.foldlM getFnsPageStep acc = .ok (acc ++ pp.flatten.map (afterLastSep '/')) by
    simpa [boto3GetFns] using hgo pages hne hsl []
  intro pp
  induction pp with
  | nil =>
    intro _ _ acc
    show Except.ok acc = _
    simp
  | cons page rest ih =>
    intro hne' hsl' acc
    have hpe : page.isEmpty = false := by
      cases page with
      | nil => exact absurd rfl (hne' [] (by simp))
      | cons a b => simp
    rw [List.foldlM_cons]
    have hstep : getFnsPageStep acc page = .ok (acc ++ page.map (afterLastSep '/')) := by
      rw [getFnsPageStep, hpe]
      simpa using getFns_inner_fold page acc (hsl' page (by simp))
    rw [hstep]
    show rest.foldlM getFnsPageStep (acc ++ page.map (afterLastSep '/')) = _
    rw [ih (fun p hp => hne' p (by simp [hp])) (fun p hp => hsl' p (by simp [hp]))
        (acc ++ page.map (afterLastSep '/'))]
    simp

theorem get_fns_paginates_all_final_segments_witness :
    (∀ p ∈ c7Pages, p ≠ []) ∧ (∀ p ∈ c7Pages, ∀ k ∈ p, k.contains '/' = true) ∧
    boto3GetFns c7Pages = .ok [("a.pt").toList, ("b.pt").toList, ("c.pt").toList] :=
  ⟨by decide, by decide,
    by
      have := get_fns_paginates_all_final_segments c7Pages (by decide) (by decide)
      simpa using this⟩

theorem cacheFind_mem {c : ClientCache} {k : Str} {i : Nat} (h : cacheFind c k = some i) :
    ∃ e ∈ c.entries, e.1 = k ∧ e.2 = i := by
  unfold cacheFind at h
  cases hf : c.entries.find? (fun e => e.1 == k) with
  | none => rw [hf] at h; simp at h
  | some e =>
    rw [hf] at h
    simp only [Option.map_some'] at h
    refine ⟨e, List.mem_of_find?_eq_some hf, ?_, by simpa using h⟩
    have hp := List.find?_some hf
    simpa using hp

theorem find?_append_of_none {α : Type} (l₁ l₂ : List α) (p : α → Bool)
    (h : l₁.find? p = none) : (l₁ ++ l₂).find? p = l₂.find? p := by
  induction l₁ with
  | nil => simp
  | cons a t ih =>
    rw [List.cons_append, List.find?_cons] at *
    cases hpa : p a
    · simp only [hpa, cond_false] at h ⊢
      exact ih h
    · simp [hpa] at h

theorem cacheFind_append_self {c : ClientCache} {k : Str} (h : cacheFind c k = none) :
    cacheFind { entries := c.entries ++ [(k, c.nextId)], nextId := c.nextId + 1 } k =
      some c.nextId := by
  have hf : c.entries.find? (fun e => e.1 == k) = none := by
    unfold cacheFind at h
    cases hf : c.entries.find? (fun e => e.1 == k) with
    | none => rfl
    | some e => rw [hf] at h; simp at h
  unfold cacheFind
  simp only []
  rw [find?_append_of_none _ _ _ hf]
  simp

theorem cliGetOrCreate_found {c : ClientCache} {k : Str} {i : Nat}
    (h : cacheFind c k = some i) : cliGetOrCreate c k = (i, c) := by
  unfold cliGetOrCreate
  rw [h]

theorem cliGetOrCreate_new {c : ClientCache} {k : Str} (h : cacheFind c k = none) :
    cliGetOrCreate c k =
      (c.nextId, { entries := c.entries ++ [(k, c.nextId)], nextId := c.nextId + 1 }) := by
  unfold cliGetOrCreate
  rw [h]

/-- After resolving a key, the cache maps that key to the returned
client id. -/
theorem cliGetOrCreate_find_self (c : ClientCache) (k : Str) :
    cacheFind (cliGetOrCreate c k).2 k = some (cliGetOrCreate c k).1 := by
  cases hf : cacheFind c k with
  | some i => rw [cliGetOrCreate_found hf]; exact hf
  | none => rw [cliGetOrCreate_new hf]; exact cacheFind_append_self hf

theorem find?_append_of_some {α : Type} (l₁ l₂ : List α) (p : α → Bool) {e : α}
    (h : l₁.find? p = some e) : (l₁ ++ l₂).find? p = some e := by
  induction l₁ with
  | nil => simp at h
  | cons a t ih =>
    rw [List.cons_append, List.find?_cons] at *
    cases hpa : p a
    · simp only [hpa, cond_false] at h ⊢
      exact ih h
    · simp only [hpa, cond_true] at h ⊢
      exact h

/-- Resolving a key never invalidates an existing cache entry. -/
theorem cliGetOrCreate_preserves (c : ClientCache) (k k' : Str) {i : Nat}
    (h : cacheFind c k' = some i) : cacheFind (cliGetOrCreate c k).2 k' = some i := by
  cases hf : cacheFind c k with
  | some j => rw [cliGetOrCreate_found hf]; exact h
  | none =>
    rw [cliGetOrCreate_new hf]
    unfold cacheFind at h ⊢
    cases he : c.entries.find? (fun e => e.1 == k') with
    | none => rw [he] at h; simp at h
    | some e =>
      rw [he] at h
      simp only []
      rw [find?_append_of_some _ _ _ he]
      exact h

theorem cliGetOrCreate_wf {c : ClientCache} (hwf : CacheWF c) (k : Str) :
    CacheWF (cliGetOrCreate c k).2 := by
  cases hf : cacheFind c k with
  | some i => rw [cliGetOrCreate_found hf]; exact hwf
  | none =>
    rw [cliGetOrCreate_new hf]
    constructor
    · simp only [List.map_append, List.map_cons, List.map_nil]
      refine List.Nodup.append hwf.1 (List.nodup_singleton _) ?_
      intro a ha hb
      simp only [List.mem_singleton] at hb
      subst hb
      rcases List.mem_map.mp ha with ⟨e, he, hsnd⟩
      exact absurd (hsnd ▸ hwf.2 e he) (lt_irrefl _)
    · intro e he
      rcases List.mem_append.mp he with h1 | h1
      · exact Nat.lt_succ_of_lt (hwf.2 e h1)
      · simp only [List.mem_singleton] at h1
        subst h1
        exact Nat.lt_succ_self _

theorem cacheFind_bound {c : ClientCache} (hwf : CacheWF c) {k : Str} {i : Nat}
    (h : cacheFind c k = some i) : i < c.nextId := by
  rcases cacheFind_mem h with ⟨e, he, _, hei⟩
  exact hei ▸ hwf.2 e he

theorem cacheFind_inj {c : ClientCache} (hwf : CacheWF c) {k1 k2 : Str} {i1 i2 : Nat}
    (h1 : cacheFind c k1 = some i1) (h2 : cacheFind c k2 = some i2) (hk : k1 ≠ k2) :
    i1 ≠ i2 := by
  rcases cacheFind_mem h1 with ⟨e1, he1, hk1, hi1⟩
  rcases cacheFind_mem h2 with ⟨e2, he2, hk2, hi2⟩
  intro hEq
  have hne : e1 ≠ e2 := by
    intro hc
    exact hk (hk1 ▸ hk2 ▸ hc ▸ rfl)
  exact hne (List.inj_on_of_nodup_map hwf.1 he1 he2 (by rw [hi1, hi2, hEq]))

/-- Source `_get_client` attaches precisely the client stored under the meta's
cache key (backend tag, plus endpoint for boto3). -/
theorem getClientFn_uses_key {tmp : Str} {am : Bool} {tp : TimePid} {c : ClientCache}
    {p : Str} {m : MetaInfo} {c' : ClientCache}
    (h : getClientFn tmp am tp c p = .ok (m, c')) :
    cliGetOrCreate c (cacheKeyOfMeta m) = (clientIdOf m, c') := by
  unfold getClientFn at h
  split at h
  · simp at h
  · rename_i backend rest
    split at h
    · rename_i hb
      split at h
      · simp at h
      · rename_i dest hdest
        simp only [Except.ok.injEq, Prod.mk.injEq] at h
        rcases h with ⟨hm, hc⟩
        subst hm hc hb
        rfl
    · split at h
      · rename_i hb
        split at h
        · simp at h
        · rename_i mm hmm
          simp only [Except.ok.injEq, Prod.mk.injEq] at h
          rcases h with ⟨hm, hc⟩
          subst hm hc hb
          rfl
      · simp at h

/-- C6: client instances are deduplicated by cache key (the backend tag
for local, the backend tag plus endpoint url for boto3): a second
resolution hitting the same cache key returns the same client instance
and leaves the cache untouched, while a resolution hitting a different
cache key (e.g. a distinct remote endpoint) yields a distinct client
instance. -/
theorem client_cache_single_instance
    (tmp : Str) (am : Bool) (tp : TimePid) (c : ClientCache) (p1 p2 : Str)
    (m1 : MetaInfo) (c1 : ClientCache) (m2 : MetaInfo) (c2 : ClientCache)
    (hwf : CacheWF c)
    (h1 : getClientFn tmp am tp c p1 = .ok (m1, c1))
    (h2 : getClientFn tmp am tp c1 p2 = .ok (m2, c2)) :
    (cacheKeyOfMeta m2 = cacheKeyOfMeta m1 → clientIdOf m2 = clientIdOf m1 ∧ c2 = c1) ∧
    (cacheKeyOfMeta m2 ≠ cacheKeyOfMeta m1 → clientIdOf m2 ≠ clientIdOf m1) ∧
    cacheFind c2 (cacheKeyOfMeta m1) = some (clientIdOf m1) := by
  have g1 := getClientFn_uses_key h1
  have g2 := getClientFn_uses_key h2
  have hf1 : cacheFind c1 (cacheKeyOfMeta m1) = some (clientIdOf m1) := by
    have hh := cliGetOrCreate_find_self c (cacheKeyOfMeta m1)
    rw [g1] at hh
    exact hh
  have hwf1 : CacheWF c1 := by
    have hh := cliGetOrCreate_wf hwf (cacheKeyOfMeta m1)
    rw [g1] at hh
    exact hh
  refine ⟨?_, ?_, ?_⟩
  · intro hk
    rw [hk, cliGetOrCreate_found hf1] at g2
    injection g2 with ha hb
    exact ⟨ha.symm, hb.symm⟩
  · intro hk hEq
    cases hf2 : cacheFind c1 (cacheKeyOfMeta m2) with
    | some i =>
      rw [cliGetOrCreate_found hf2] at g2
      injection g2 with ha _
      exact cacheFind_inj hwf1 hf2 hf1 hk (ha.trans hEq)
    | none =>
      rw [cliGetOrCreate_new hf2] at g2
      injection g2 with ha _
      have hb := cacheFind_bound hwf1 hf1
      rw [ha, hEq] at hb
      exact lt_irrefl _ hb
  · have hh := cliGetOrCreate_preserves c1 (cacheKeyOfMeta m2) (cacheKeyOfMeta m1) hf1
    rw [g2] at hh
    exact hh

theorem client_cache_single_instance_witness :
    (cacheKeyOfMeta c6M2 = cacheKeyOfMeta c6M1 →
      clientIdOf c6M2 = clientIdOf c6M1 ∧ c6C2 = c6C1) ∧
    (cacheKeyOfMeta c6M2 ≠ cacheKeyOfMeta c6M1 → clientIdOf c6M2 ≠ clientIdOf c6M1) ∧
    cacheFind c6C2 (cacheKeyOfMeta c6M1) = some (clientIdOf c6M1) :=
  client_cache_single_instance (("/t").toList) true c6Tp { entries := [], nextId := 0 }
    (("boto3:s3://b.1.2/k").toList) (("boto3:s3://b.3.4/k").toList)
    c6M1 c6C1 c6M2 c6C2 (by decide) (by decide) (by decide)

/-- After `_sync_tasks` the tracking list is empty. -/
theorem syncTasks_stack (st : SMState) (w : World) : (syncTasks st w).1.asyncStack = [] := by
  unfold syncTasks
  split
  · rename_i h
    simpa [List.isEmpty_iff] using h
  · rfl

/-- Source `_sync_tasks` runs every pending upload to completion: the remote
store ends up with every submitted task applied. -/
theorem syncTasks_remote (st : SMState) (w : World) :
    (syncTasks st w).2.remote = st.asyncStack.foldl applyTask w.remote := by
  unfold syncTasks
  split
  · rename_i h
    have hs : st.asyncStack = [] := by simpa [List.isEmpty_iff] using h
    simp [hs]
  · rfl

/-- Source `_sync_tasks` never appends an Exception Record: for every done
task, `task.exception()` returns its value, which the loop discards. -/
theorem syncTasks_records_nothing (st : SMState) (w : World) :
    (syncTasks st w).1.exceptionList = st.exceptionList := by
  unfold syncTasks
  split
  · rfl
  · show st.asyncStack.foldl _ st.exceptionList = st.exceptionList
    induction st.asyncStack with
    | nil => rfl
    | cons t rest ih => simp only [List.foldl_cons, futureException]; exact ih

/-- Anatomy of a successful `wait`: either it was the `async_mode=False`
no-op, or the drain ran — leaving an empty tracking list and a remote
store holding the effect of every previously pending upload. -/
theorem waitFn_ok_spec (isLog : Bool) (st : SMState) (w : World) (st' : SMState) (w' : World)
    (h : waitFn isLog st w = .ok (st', w')) :
    (st.asyncMode = false ∧ st' = st ∧ w' = w) ∨
    (st.asyncMode = true ∧ st'.asyncStack = [] ∧
      w'.remote = st.asyncStack.foldl applyTask w.remote) := by
  simp only [waitFn] at h
  split at h
  · rename_i hmode
    left
    simp only [Except.ok.injEq, Prod.mk.injEq] at h
    exact ⟨hmode, h.1.symm, h.2.symm⟩
  · rename_i hmode
    split at h
    · simp at h
    · right
      have hm : st.asyncMode = true := by
        cases hb : st.asyncMode
        · exact absurd hb hmode
        · rfl
      refine ⟨hm, ?_⟩
      split at h
      · split at h
        · simp at h
        · rename_i fs' hdel
          simp only [Except.ok.injEq, Prod.mk.injEq] at h
          obtain ⟨h1, h2⟩ := h
          constructor
          · rw [← h1]
            exact syncTasks_stack st w
          · rw [← h2]
            exact syncTasks_remote st w
      · split at h
        · simp at h
        · simp at h

/-- C5: a successful `load` implies that `wait` ran first and
succeeded, that the manager it left behind has no pending task, that
the remote store read by the backend already contains the effect of
every upload that was pending at the call, and that the backend `load`
was evaluated against exactly that post-drain state.  (The side
condition is the reachable-state invariant that a manager in
non-async mode has no pending tasks — submissions fault without a
loop.) -/
theorem load_waits_before_backend_read
    (isLog : Bool) (tp : TimePid) (st : SMState) (w : World) (cache : ClientCache)
    (path : Str) (st2 : SMState) (w2 : World) (c2 : ClientCache) (v : Nat)
    (hstack : st.asyncMode = false → st.asyncStack = [])
    (h : loadFn isLog tp st w cache path = .ok (st2, w2, c2, v)) :
    waitFn isLog st w = .ok (st2, w2) ∧
    st2.asyncStack = [] ∧
    w2.remote = st.asyncStack.foldl applyTask w.remote ∧
    ∃ m, getClientFn st2.tmpLocalFolder st2.asyncMode tp cache path = .ok (m, c2) ∧
      clientLoad m w2 = .ok v := by
  unfold loadFn at h
  split at h
  · simp at h
  · rename_i st' w' hwait
    split at h
    · simp at h
    · rename_i m cache' hget
      split at h
      · simp at h
      · rename_i v0 hload
        simp only [Except.ok.injEq, Prod.mk.injEq] at h
        obtain ⟨h1, h2, h3, h4⟩ := h
        subst h1
        subst h2
        subst h3
        subst h4
        refine ⟨hwait, ?_, ?_, m, hget, hload⟩
        · rcases waitFn_ok_spec isLog st w _ _ hwait with ⟨hm, hs, _⟩ | ⟨_, hs, _⟩
          · rw [hs]
            exact hstack hm
          · exact hs
        · rcases waitFn_ok_spec isLog st w _ _ hwait with ⟨hm, _, hw⟩ | ⟨_, _, hw⟩
          · rw [hw, hstack hm]
            rfl
          · exact hw

theorem load_waits_before_backend_read_witness :
    waitFn false c5State c5World = .ok (c5St2, c5W2) ∧
    c5St2.asyncStack = [] ∧
    c5W2.remote = c5State.asyncStack.foldl applyTask c5World.remote ∧
    ∃ m, getClientFn c5St2.tmpLocalFolder c5St2.asyncMode c5TpW c5Cache c5Path =
        .ok (m, c5C2) ∧
      clientLoad m c5W2 = .ok 7 :=
  load_waits_before_backend_read false c5TpW c5State c5World c5Cache c5Path c5St2 c5W2 c5C2 7
    (by decide) (by decide)

end StorageSpec
